import Mathlib

/-!
Verification of the vitamink presence daemon (src/daemon.rs).

The daemon watches a monitor's DPMS power signal and debounces it through a
grace period before committing a presence transition.  A committed transition
drives two effect sinks: the dummy-display toggler (kscreen-doctor, in
src/display.rs) and the Sunshine service controller (systemctl, in
src/sunshine.rs).

The shallow embedding below mirrors daemon.rs.  Instants and durations are
natural numbers (seconds); the monotonic reading `started.elapsed()` at time
`now` is the truncated subtraction `now - started`.  The external collaborators
are modelled by an environment record `Env` deciding the outcome of each
effect-sink call, and every invocation of a sink is recorded in an effect
trace, whether or not the call succeeds.
-/

/-- DPMS power state of an output, as read from sysfs (src/display.rs). -/
inductive DpmsState
  | On
  | Off
  | Unknown
  deriving DecidableEq, Repr

/-- The two presence states of the daemon (src/daemon.rs, enum State). -/
inductive State
  | AtDesk
  | Away
  deriving DecidableEq, Repr

/-- Daemon configuration (src/daemon.rs, struct Config).  Durations in seconds. -/
structure Config where
  main_display : String
  dummy_plug : String
  poll_interval : Nat
  grace_period : Nat
  deriving DecidableEq, Repr

/-- Default configuration (src/daemon.rs, impl Default for Config). -/
def Config.default : Config :=
  { main_display := "DP-2"
    dummy_plug := "HDMI-A-1"
    poll_interval := 5
    grace_period := 10 }

/-- Daemon state (src/daemon.rs, struct Daemon). -/
structure Daemon where
  config : Config
  state : State
  transition_started : Option Nat
  deriving DecidableEq, Repr

/-- One effect-sink invocation, recorded in order of invocation. -/
inductive Effect
  | enableOutput (name : String)
  | startService
  | stopService
  | disableOutput (name : String)
  deriving DecidableEq, Repr

/-- Outcome of the external world for one tick: whether each effect-sink call
succeeds, and what `sunshine::is_running()` reports. -/
structure Env where
  enableOk : Bool
  startOk : Bool
  stopOk : Bool
  disableOk : Bool
  serviceRunning : Bool
  deriving DecidableEq, Repr

/-- The mapping from a DPMS reading to the desired presence state used at the
top of Daemon::poll: Off maps to Away, On maps to AtDesk, Unknown maps to no
state (the poll returns early). -/
def desiredOf : DpmsState → Option State
  | DpmsState.Off => some State.Away
  | DpmsState.On => some State.AtDesk
  | DpmsState.Unknown => none

/-- Daemon::apply_state (src/daemon.rs lines 147-172).  Matches on the current
state; Away enables the dummy plug then starts Sunshine, AtDesk stops Sunshine
(only if it is running) then disables the dummy plug.  The Rust question-mark
operator aborts the sequence at the first failing call; every call made is
recorded in the trace. -/
def Daemon.apply_state (d : Daemon) (env : Env) : Except String Unit × List Effect :=
  match d.state with
  | State.Away =>
    if env.enableOk then
      if env.startOk then
        (Except.ok (), [Effect.enableOutput d.config.dummy_plug, Effect.startService])
      else
        (Except.error "systemctl start sunshine failed",
         [Effect.enableOutput d.config.dummy_plug, Effect.startService])
    else
      (Except.error "kscreen-doctor failed", [Effect.enableOutput d.config.dummy_plug])
  | State.AtDesk =>
    if env.serviceRunning then
      if env.stopOk then
        if env.disableOk then
          (Except.ok (), [Effect.stopService, Effect.disableOutput d.config.dummy_plug])
        else
          (Except.error "kscreen-doctor failed",
           [Effect.stopService, Effect.disableOutput d.config.dummy_plug])
      else
        (Except.error "systemctl stop sunshine failed", [Effect.stopService])
    else
      if env.disableOk then
        (Except.ok (), [Effect.disableOutput d.config.dummy_plug])
      else
        (Except.error "kscreen-doctor failed", [Effect.disableOutput d.config.dummy_plug])

/-- Body of Daemon::poll after the reading has been mapped to a desired state
(src/daemon.rs lines 118-143).  Returns the updated daemon, the tick's result,
and the trace of effect-sink invocations. -/
def Daemon.pollDesired (d : Daemon) (desired : State) (now : Nat) (env : Env) :
    Daemon × Except String Unit × List Effect :=
  if desired = d.state then
    ({ d with transition_started := none }, Except.ok (), [])
  else
    match d.transition_started with
    | none =>
      ({ d with transition_started := some now }, Except.ok (), [])
    | some started =>
      if d.config.grace_period ≤ now - started then
        let d2 : Daemon := { d with state := desired, transition_started := none }
        (d2, d2.apply_state env)
      else
        (d, Except.ok (), [])

/-- Daemon::poll (src/daemon.rs lines 107-144).  The DPMS reading obtained from
display::read_dpms is passed as an argument, and the current monotonic instant
as `now`.  Unknown logs and returns immediately with no change. -/
def Daemon.poll (d : Daemon) (dpms : DpmsState) (now : Nat) (env : Env) :
    Daemon × Except String Unit × List Effect :=
  match dpms with
  | DpmsState.Off => d.pollDesired State.Away now env
  | DpmsState.On => d.pollDesired State.AtDesk now env
  | DpmsState.Unknown => (d, Except.ok (), [])

/-- Daemon::new (src/daemon.rs lines 74-89).  The result of the one synchronous
startup read of the signal source is passed as `dpms`: Off starts Away and
anything else starts AtDesk; no transition is pending. -/
def Daemon.new (config : Config) (dpms : DpmsState) : Daemon :=
  { config := config
    state := match dpms with
      | DpmsState.Off => State.Away
      | _ => State.AtDesk
    transition_started := none }

/-- A finite window of the infinite loop in Daemon::run (src/daemon.rs lines
98-105): each tick polls with that tick's reading and instant; a tick's error
is logged and discarded and the loop continues with the remaining ticks.  The
daemon after the window and the concatenated effect trace are returned. -/
def Daemon.runTicks (d : Daemon) (env : Env) :
    List (DpmsState × Nat) → Daemon × List Effect
  | [] => (d, [])
  | (r, t) :: rest =>
    let step := d.poll r t env
    let next := Daemon.runTicks step.1 env rest
    (next.1, step.2.2 ++ next.2)

/-- Reading of the tick at index i of an input window. -/
def readAt (inputs : List (DpmsState × Nat)) (i : Nat) : DpmsState :=
  (inputs.getD i (DpmsState.Unknown, 0)).1

/-- Monotonic instant of the tick at index i of an input window. -/
def timeAt (inputs : List (DpmsState × Nat)) (i : Nat) : Nat :=
  (inputs.getD i (DpmsState.Unknown, 0)).2

/-- The daemon after the first i ticks of an input window. -/
def daemonAfter (d0 : Daemon) (env : Env) (inputs : List (DpmsState × Nat))
    (i : Nat) : Daemon :=
  (d0.runTicks env (inputs.take i)).1

/-- Index of the first tick of the maximal run of identical readings that
contains tick i: a new run starts wherever the reading differs from the
previous tick's reading. -/
def runStart (inputs : List (DpmsState × Nat)) : Nat → Nat
  | 0 => 0
  | i + 1 =>
    if readAt inputs i = readAt inputs (i + 1) then runStart inputs i else i + 1

-- ---- Per-tick lemmas about pollDesired and poll ----

theorem pollDesired_match (d : Daemon) (desired : State) (now : Nat) (env : Env)
    (h : desired = d.state) :
    d.pollDesired desired now env =
      ({ d with transition_started := none }, Except.ok (), []) := by
  simp [Daemon.pollDesired, h]

theorem pollDesired_start (d : Daemon) (desired : State) (now : Nat) (env : Env)
    (hne : desired ≠ d.state) (hts : d.transition_started = none) :
    d.pollDesired desired now env =
      ({ d with transition_started := some now }, Except.ok (), []) := by
  simp [Daemon.pollDesired, hne, hts]

theorem pollDesired_wait (d : Daemon) (desired : State) (now t0 : Nat) (env : Env)
    (hne : desired ≠ d.state) (hts : d.transition_started = some t0)
    (hlt : now - t0 < d.config.grace_period) :
    d.pollDesired desired now env = (d, Except.ok (), []) := by
  simp [Daemon.pollDesired, hne, hts, Nat.not_le.mpr hlt]

theorem pollDesired_commit (d : Daemon) (desired : State) (now t0 : Nat) (env : Env)
    (hne : desired ≠ d.state) (hts : d.transition_started = some t0)
    (hle : d.config.grace_period ≤ now - t0) :
    d.pollDesired desired now env =
      (⟨d.config, desired, none⟩,
       (Daemon.apply_state ⟨d.config, desired, none⟩ env)) := by
  simp [Daemon.pollDesired, hne, hts, hle]

theorem poll_of_desired (d : Daemon) (r : DpmsState) (s : State) (now : Nat)
    (env : Env) (h : desiredOf r = some s) :
    d.poll r now env = d.pollDesired s now env := by
  cases r with
  | On => simp [desiredOf] at h; subst h; rfl
  | Off => simp [desiredOf] at h; subst h; rfl
  | Unknown => simp [desiredOf] at h

theorem poll_unknown (d : Daemon) (now : Nat) (env : Env) :
    d.poll DpmsState.Unknown now env = (d, Except.ok (), []) := rfl

/-- The configuration field is never written by a poll. -/
theorem poll_config (d : Daemon) (r : DpmsState) (now : Nat) (env : Env) :
    (d.poll r now env).1.config = d.config := by
  cases r <;>
    simp only [Daemon.poll, Daemon.pollDesired] <;>
    split <;>
    first
      | rfl
      | (split <;> first | rfl | (split <;> rfl))

/-- A poll that finds no pending transition never changes the committed state. -/
theorem poll_state_of_none (d : Daemon) (r : DpmsState) (now : Nat) (env : Env)
    (hts : d.transition_started = none) :
    (d.poll r now env).1.state = d.state := by
  cases r <;>
    simp only [Daemon.poll, Daemon.pollDesired, hts] <;>
    split <;> rfl

/-- Inversion: a state change at a tick can only come from the commit branch. -/
theorem poll_change (d : Daemon) (r : DpmsState) (now : Nat) (env : Env)
    (h : (d.poll r now env).1.state ≠ d.state) :
    ∃ s t0, desiredOf r = some s ∧ s ≠ d.state ∧
      d.transition_started = some t0 ∧ d.config.grace_period ≤ now - t0 ∧
      (d.poll r now env).1 = ⟨d.config, s, none⟩ := by
  cases r with
  | Unknown => simp [Daemon.poll] at h
  | On =>
    refine ⟨State.AtDesk, ?_⟩
    by_cases hm : State.AtDesk = d.state
    · rw [poll_of_desired d DpmsState.On State.AtDesk now env rfl,
        pollDesired_match d _ now env hm] at h
      simp at h
    · cases hts : d.transition_started with
      | none =>
        rw [poll_of_desired d DpmsState.On State.AtDesk now env rfl,
          pollDesired_start d _ now env hm hts] at h
        simp at h
      | some t0 =>
        by_cases hle : d.config.grace_period ≤ now - t0
        · refine ⟨t0, rfl, hm, rfl, hle, ?_⟩
          rw [poll_of_desired d DpmsState.On State.AtDesk now env rfl,
            pollDesired_commit d _ now t0 env hm hts hle]
        · rw [poll_of_desired d DpmsState.On State.AtDesk now env rfl,
            pollDesired_wait d _ now t0 env hm hts (Nat.lt_of_not_le hle)] at h
          simp at h
  | Off =>
    refine ⟨State.Away, ?_⟩
    by_cases hm : State.Away = d.state
    · rw [poll_of_desired d DpmsState.Off State.Away now env rfl,
        pollDesired_match d _ now env hm] at h
      simp at h
    · cases hts : d.transition_started with
      | none =>
        rw [poll_of_desired d DpmsState.Off State.Away now env rfl,
          pollDesired_start d _ now env hm hts] at h
        simp at h
      | some t0 =>
        by_cases hle : d.config.grace_period ≤ now - t0
        · refine ⟨t0, rfl, hm, rfl, hle, ?_⟩
          rw [poll_of_desired d DpmsState.Off State.Away now env rfl,
            pollDesired_commit d _ now t0 env hm hts hle]
        · rw [poll_of_desired d DpmsState.Off State.Away now env rfl,
            pollDesired_wait d _ now t0 env hm hts (Nat.lt_of_not_le hle)] at h
          simp at h

-- ---- Lemmas about the polling-loop window ----

theorem runTicks_nil (d : Daemon) (env : Env) : d.runTicks env [] = (d, []) := rfl

theorem runTicks_cons (d : Daemon) (env : Env) (r : DpmsState) (t : Nat)
    (rest : List (DpmsState × Nat)) :
    d.runTicks env ((r, t) :: rest) =
      (((d.poll r t env).1.runTicks env rest).1,
       (d.poll r t env).2.2 ++ ((d.poll r t env).1.runTicks env rest).2) := rfl

theorem runTicks_append (env : Env) (xs ys : List (DpmsState × Nat)) :
    ∀ d : Daemon,
      d.runTicks env (xs ++ ys) =
        (((d.runTicks env xs).1.runTicks env ys).1,
         (d.runTicks env xs).2 ++ ((d.runTicks env xs).1.runTicks env ys).2) := by
  induction xs with
  | nil => intro d; simp [Daemon.runTicks]
  | cons x rest ih =>
    intro d
    obtain ⟨r, t⟩ := x
    simp [runTicks_cons, ih, List.append_assoc]

theorem runTicks_config (env : Env) (inputs : List (DpmsState × Nat)) :
    ∀ d : Daemon, (d.runTicks env inputs).1.config = d.config := by
  induction inputs with
  | nil => intro d; rfl
  | cons x rest ih =>
    intro d
    obtain ⟨r, t⟩ := x
    rw [runTicks_cons]
    exact (ih (d.poll r t env).1).trans (poll_config d r t env)

theorem runTicks_single (d : Daemon) (env : Env) (x : DpmsState × Nat) :
    (d.runTicks env [x]).1 = (d.poll x.1 x.2 env).1 := rfl

theorem daemonAfter_zero (d0 : Daemon) (env : Env)
    (inputs : List (DpmsState × Nat)) : daemonAfter d0 env inputs 0 = d0 := rfl

theorem readAt_lt (inputs : List (DpmsState × Nat)) (i : Nat)
    (hi : i < inputs.length) : readAt inputs i = (inputs[i]).1 := by
  simp [readAt, List.getElem?_eq_getElem hi]

theorem timeAt_lt (inputs : List (DpmsState × Nat)) (i : Nat)
    (hi : i < inputs.length) : timeAt inputs i = (inputs[i]).2 := by
  simp [timeAt, List.getElem?_eq_getElem hi]

theorem daemonAfter_succ (d0 : Daemon) (env : Env)
    (inputs : List (DpmsState × Nat)) (i : Nat) (hi : i < inputs.length) :
    daemonAfter d0 env inputs (i + 1) =
      ((daemonAfter d0 env inputs i).poll (readAt inputs i) (timeAt inputs i)
        env).1 := by
  have ht : inputs.take (i + 1) = inputs.take i ++ [inputs[i]] := by
    rw [List.take_succ, List.getElem?_eq_getElem hi]
    rfl
  have h2 : daemonAfter d0 env inputs (i + 1)
      = ((d0.runTicks env (inputs.take i)).1.runTicks env [inputs[i]]).1 := by
    unfold daemonAfter
    rw [ht, runTicks_append]
  rw [h2, runTicks_single, readAt_lt _ _ hi, timeAt_lt _ _ hi]
  rfl

theorem daemonAfter_config (d0 : Daemon) (env : Env)
    (inputs : List (DpmsState × Nat)) (i : Nat) :
    (daemonAfter d0 env inputs i).config = d0.config :=
  runTicks_config env (inputs.take i) d0

-- ---- C7 ----

/-- C7: at construction (Daemon::new) the initial PresenceState is derived from
one synchronous signal read: Off yields Away, and On or Unknown yields AtDesk;
PendingTransition starts as None. -/
theorem C7_initial_state :
    ∀ cfg : Config,
      (Daemon.new cfg DpmsState.Off).state = State.Away ∧
      (Daemon.new cfg DpmsState.On).state = State.AtDesk ∧
      (Daemon.new cfg DpmsState.Unknown).state = State.AtDesk ∧
      ∀ r : DpmsState, (Daemon.new cfg r).transition_started = none := by
  intro cfg
  exact ⟨rfl, rfl, rfl, fun r => rfl⟩

-- ---- C3 ----

/-- C3: on any tick whose reading maps to a desired state equal to the current
PresenceState, poll clears PendingTransition, performs no state change and no
effect; an in-flight candidate transition is cancelled with zero effect calls. -/
theorem C3_flap_cancel :
    ∀ (d : Daemon) (env : Env) (r : DpmsState) (now : Nat),
      desiredOf r = some d.state →
      d.poll r now env =
        ({ d with transition_started := none }, Except.ok (), []) := by
  intro d env r now h
  rw [poll_of_desired d r d.state now env h, pollDesired_match d d.state now env rfl]

/-- Witness for C3: an AtDesk daemon with a pending transition sees On again
before the grace period elapses; the candidate is cancelled with no effects. -/
theorem C3_flap_cancel_witness :
    Daemon.poll ⟨⟨"m", "d", 5, 10⟩, State.AtDesk, some 0⟩ DpmsState.On 4
        ⟨true, true, true, true, false⟩ =
      (⟨⟨"m", "d", 5, 10⟩, State.AtDesk, none⟩, Except.ok (), []) :=
  C3_flap_cancel ⟨⟨"m", "d", 5, 10⟩, State.AtDesk, some 0⟩
    ⟨true, true, true, true, false⟩ DpmsState.On 4 (by decide)

-- ---- C5 ----

/-- C5: feeding Unknown any number of times never mutates PresenceState or
PendingTransition: every such tick returns immediately with no effects, leaving
the daemon exactly as it was. -/
theorem C5_unknown_hold :
    ∀ (d : Daemon) (env : Env) (inputs : List (DpmsState × Nat)),
      (∀ p ∈ inputs, p.1 = DpmsState.Unknown) →
      d.runTicks env inputs = (d, []) := by
  intro d env inputs
  induction inputs with
  | nil => intro _; rfl
  | cons x rest ih =>
    intro h
    obtain ⟨r, t⟩ := x
    have hr : r = DpmsState.Unknown := h (r, t) (List.mem_cons_self _ _)
    subst hr
    have hrest := ih (fun p hp => h p (List.mem_cons_of_mem _ hp))
    simp [runTicks_cons, poll_unknown, hrest]

/-- Witness for C5: three Unknown ticks leave a daemon with an in-flight
pending transition untouched. -/
theorem C5_unknown_hold_witness :
    Daemon.runTicks ⟨⟨"m", "d", 5, 10⟩, State.Away, some 3⟩
        ⟨true, true, true, true, true⟩
        [(DpmsState.Unknown, 0), (DpmsState.Unknown, 7), (DpmsState.Unknown, 100)] =
      (⟨⟨"m", "d", 5, 10⟩, State.Away, some 3⟩, []) :=
  C5_unknown_hold _ _ _ (by decide)

-- ---- C9 ----

/-- C9: frame condition on the Configuration — the config record (fields
main_display, dummy_plug, poll_interval, grace_period) is what was given at
construction and is left unchanged by every poll and by every window of the
polling loop.  apply_state takes the daemon immutably and returns no daemon, so
it cannot touch the configuration at all. -/
theorem C9_config_frame :
    ∀ (cfg : Config) (dpms : DpmsState) (d : Daemon) (env : Env) (r : DpmsState)
      (now : Nat) (inputs : List (DpmsState × Nat)),
      (Daemon.new cfg dpms).config = cfg ∧
      (d.poll r now env).1.config = d.config ∧
      (d.runTicks env inputs).1.config = d.config := by
  intro cfg dpms d env r now inputs
  exact ⟨rfl, poll_config d r now env, runTicks_config env inputs d⟩

-- ---- C4 ----

/-- C4: commit sequencing — on a commit to Away, apply_state invokes
enable-output strictly before start-service, each exactly once (trace equals
the two-element list); on a commit to AtDesk it invokes stop-service strictly
before disable-output when the service is running, only disable-output when it
is not, and stop-service is invoked only when is_running reports true. -/
theorem C4_commit_sequencing :
    ∀ (d : Daemon) (env : Env),
      (d.state = State.Away → env.enableOk = true →
        (d.apply_state env).2 =
          [Effect.enableOutput d.config.dummy_plug, Effect.startService]) ∧
      (d.state = State.AtDesk → env.serviceRunning = true → env.stopOk = true →
        (d.apply_state env).2 =
          [Effect.stopService, Effect.disableOutput d.config.dummy_plug]) ∧
      (d.state = State.AtDesk → env.serviceRunning = false →
        (d.apply_state env).2 = [Effect.disableOutput d.config.dummy_plug]) ∧
      (Effect.stopService ∈ (d.apply_state env).2 →
        env.serviceRunning = true) := by
  intro d env
  refine ⟨?_, ?_, ?_, ?_⟩
  · intro hs he
    simp only [Daemon.apply_state, hs, he, if_true]
    split <;> rfl
  · intro hs hr hk
    simp only [Daemon.apply_state, hs, hr, hk, if_true]
    split <;> rfl
  · intro hs hr
    simp only [Daemon.apply_state, hs, hr, Bool.false_eq_true, if_false]
    split <;> rfl
  · intro hmem
    cases hsr : env.serviceRunning with
    | true => rfl
    | false =>
      exfalso
      cases hst : d.state <;>
        cases hek : env.enableOk <;>
        cases hsk : env.startOk <;>
        cases hdk : env.disableOk <;>
        simp [Daemon.apply_state, hst, hsr, hek, hsk, hdk] at hmem

/-- Witness for C4: a concrete Away commit with a successful enable invokes
enable-output then start-service, and a concrete AtDesk commit with the
service running invokes stop-service then disable-output. -/
theorem C4_commit_sequencing_witness :
    (Daemon.apply_state ⟨⟨"m", "d", 5, 10⟩, State.Away, none⟩
        ⟨true, true, true, true, false⟩).2 =
      [Effect.enableOutput "d", Effect.startService] ∧
    (Daemon.apply_state ⟨⟨"m", "d", 5, 10⟩, State.AtDesk, none⟩
        ⟨true, true, true, true, true⟩).2 =
      [Effect.stopService, Effect.disableOutput "d"] :=
  ⟨(C4_commit_sequencing ⟨⟨"m", "d", 5, 10⟩, State.Away, none⟩
      ⟨true, true, true, true, false⟩).1 rfl rfl,
   (C4_commit_sequencing ⟨⟨"m", "d", 5, 10⟩, State.AtDesk, none⟩
      ⟨true, true, true, true, true⟩).2.1 rfl rfl rfl⟩

-- ---- C10 ----

/-- C10: within a single commit's effect sequence a failing step aborts the
remainder — on an Away commit a failing enable-output means start-service is
never invoked during that commit; on an AtDesk commit a failing stop-service
means disable-output is never invoked during that commit. -/
theorem C10_failure_aborts :
    ∀ (d : Daemon) (env : Env),
      (d.state = State.Away → env.enableOk = false →
        (d.apply_state env).2 = [Effect.enableOutput d.config.dummy_plug] ∧
        Effect.startService ∉ (d.apply_state env).2) ∧
      (d.state = State.AtDesk → env.serviceRunning = true → env.stopOk = false →
        (d.apply_state env).2 = [Effect.stopService] ∧
        Effect.disableOutput d.config.dummy_plug ∉ (d.apply_state env).2) := by
  intro d env
  constructor
  · intro hs he
    have ht : (d.apply_state env).2 = [Effect.enableOutput d.config.dummy_plug] := by
      simp only [Daemon.apply_state, hs, he, Bool.false_eq_true, if_false]
    exact ⟨ht, by simp [ht]⟩
  · intro hs hr hk
    have ht : (d.apply_state env).2 = [Effect.stopService] := by
      simp only [Daemon.apply_state, hs, hr, hk, if_true, Bool.false_eq_true,
        if_false]
    exact ⟨ht, by simp [ht]⟩

/-- Witness for C10: concrete failing first steps abort the rest of the
commit's effect sequence in both directions. -/
theorem C10_failure_aborts_witness :
    ((Daemon.apply_state ⟨⟨"m", "d", 5, 10⟩, State.Away, none⟩
        ⟨false, true, true, true, false⟩).2 = [Effect.enableOutput "d"] ∧
      Effect.startService ∉
        (Daemon.apply_state ⟨⟨"m", "d", 5, 10⟩, State.Away, none⟩
          ⟨false, true, true, true, false⟩).2) ∧
    ((Daemon.apply_state ⟨⟨"m", "d", 5, 10⟩, State.AtDesk, none⟩
        ⟨true, true, false, true, true⟩).2 = [Effect.stopService] ∧
      Effect.disableOutput "d" ∉
        (Daemon.apply_state ⟨⟨"m", "d", 5, 10⟩, State.AtDesk, none⟩
          ⟨true, true, false, true, true⟩).2) :=
  ⟨(C10_failure_aborts ⟨⟨"m", "d", 5, 10⟩, State.Away, none⟩
      ⟨false, true, true, true, false⟩).1 rfl rfl,
   (C10_failure_aborts ⟨⟨"m", "d", 5, 10⟩, State.AtDesk, none⟩
      ⟨true, true, false, true, true⟩).2 rfl rfl rfl⟩

-- ---- C6 ----

/-- C6: if an effect-sink step fails during a commit, the already-committed
PresenceState is retained (not rolled back) and PendingTransition remains
cleared; the failure surfaces as that tick's error result, and the polling loop
continues with the remaining ticks rather than terminating. -/
theorem C6_no_rollback :
    ∀ (d : Daemon) (env : Env) (r : DpmsState) (s : State) (now t0 : Nat),
      desiredOf r = some s → s ≠ d.state → d.transition_started = some t0 →
      d.config.grace_period ≤ now - t0 →
      (d.poll r now env).1.state = s ∧
      (d.poll r now env).1.transition_started = none ∧
      (∀ e, (Daemon.apply_state ⟨d.config, s, none⟩ env).1 = Except.error e →
        (d.poll r now env).2.1 = Except.error e) ∧
      (∀ rest : List (DpmsState × Nat),
        (d.runTicks env ((r, now) :: rest)).1 =
          ((d.poll r now env).1.runTicks env rest).1) := by
  intro d env r s now t0 hdes hne hts hle
  have hp : d.poll r now env =
      (⟨d.config, s, none⟩, Daemon.apply_state ⟨d.config, s, none⟩ env) := by
    rw [poll_of_desired d r s now env hdes,
      pollDesired_commit d s now t0 env hne hts hle]
  refine ⟨by rw [hp], by rw [hp], ?_, ?_⟩
  · intro e he
    rw [hp]
    exact he
  · intro rest
    rfl

/-- Witness for C6: a concrete commit to Away whose enable step fails keeps the
committed Away state with the pending transition cleared and surfaces the
error. -/
theorem C6_no_rollback_witness :
    (Daemon.poll ⟨⟨"m", "d", 5, 10⟩, State.AtDesk, some 0⟩ DpmsState.Off 10
        ⟨false, true, true, true, false⟩).1.state = State.Away ∧
    (Daemon.poll ⟨⟨"m", "d", 5, 10⟩, State.AtDesk, some 0⟩ DpmsState.Off 10
        ⟨false, true, true, true, false⟩).1.transition_started = none ∧
    (Daemon.poll ⟨⟨"m", "d", 5, 10⟩, State.AtDesk, some 0⟩ DpmsState.Off 10
        ⟨false, true, true, true, false⟩).2.1 =
      Except.error "kscreen-doctor failed" := by
  have h := C6_no_rollback ⟨⟨"m", "d", 5, 10⟩, State.AtDesk, some 0⟩
    ⟨false, true, true, true, false⟩ DpmsState.Off State.Away 10 0
    (by decide) (by decide) rfl (by decide)
  exact ⟨h.1, h.2.1, h.2.2.1 "kscreen-doctor failed" rfl⟩

-- ---- C2 ----

/-- Per-tick agreement property of poll for a reading that maps to a state. -/
theorem poll_post_agree (d : Daemon) (env : Env) (r : DpmsState) (t : Nat)
    (s : State) (h : desiredOf r = some s) :
    ((d.poll r t env).1.transition_started.isSome →
      s ≠ (d.poll r t env).1.state) ∧
    (s = (d.poll r t env).1.state →
      (d.poll r t env).1.transition_started = none) := by
  by_cases hm : s = d.state
  · rw [poll_of_desired d r s t env h, pollDesired_match d s t env hm]
    exact ⟨fun hsome => by simp at hsome, fun _ => rfl⟩
  · cases hts : d.transition_started with
    | none =>
      rw [poll_of_desired d r s t env h, pollDesired_start d s t env hm hts]
      exact ⟨fun _ => hm, fun heq => absurd heq hm⟩
    | some t0 =>
      by_cases hle : d.config.grace_period ≤ t - t0
      · rw [poll_of_desired d r s t env h, pollDesired_commit d s t t0 env hm hts hle]
        exact ⟨fun hsome => by simp at hsome, fun _ => rfl⟩
      · rw [poll_of_desired d r s t env h,
          pollDesired_wait d s t t0 env hm hts (Nat.lt_of_not_le hle)]
        exact ⟨fun _ => hm, fun heq => absurd heq hm⟩

/-- The C2 invariant exactly as the claim states it: over reachable daemon
states, as soon as the most recent SignalReading agrees with, or fails to map
to a state different from, the current committed PresenceState, the
PendingTransition is None. -/
def specPendingAgree : Prop :=
  ∀ (d0 : Daemon) (env : Env) (inputs : List (DpmsState × Nat)) (r : DpmsState)
    (t : Nat),
    d0.transition_started = none →
    ¬ (∃ s, desiredOf r = some s ∧
        s ≠ (d0.runTicks env (inputs ++ [(r, t)])).1.state) →
    (d0.runTicks env (inputs ++ [(r, t)])).1.transition_started = none

/-- C2 counterexample: from AtDesk, one Off reading starts a pending
transition, and a following Unknown reading leaves it in place even though
Unknown fails to map to any state different from the current one; the
invariant as stated is therefore false on the code. -/
theorem C2_counterexample : ¬ specPendingAgree := by
  intro h
  have h2 := h ⟨⟨"m", "d", 5, 10⟩, State.AtDesk, none⟩
    ⟨true, true, true, true, false⟩ [(DpmsState.Off, 0)] DpmsState.Unknown 1
    rfl (by simp [desiredOf])
  exact absurd h2 (by decide)

/-- C2 amended: over reachable daemon states, PendingTransition is Some only
while the most recent state-mapping (non-Unknown) SignalReading maps to a
PresenceState different from the current committed one, and as soon as such a
reading agrees with the current PresenceState, PendingTransition is None;
ticks with an Unknown reading leave the daemon, and hence PendingTransition,
exactly as they found it rather than clearing it. -/
theorem C2_pending_invariant :
    (∀ (d0 : Daemon) (env : Env) (inputs : List (DpmsState × Nat))
        (r : DpmsState) (t : Nat) (s : State),
        desiredOf r = some s →
        ((d0.runTicks env (inputs ++ [(r, t)])).1.transition_started.isSome →
          s ≠ (d0.runTicks env (inputs ++ [(r, t)])).1.state) ∧
        (s = (d0.runTicks env (inputs ++ [(r, t)])).1.state →
          (d0.runTicks env (inputs ++ [(r, t)])).1.transition_started = none)) ∧
    (∀ (d : Daemon) (env : Env) (t : Nat),
        (d.poll DpmsState.Unknown t env).1 = d) := by
  constructor
  · intro d0 env inputs r t s h
    have h1 : (d0.runTicks env (inputs ++ [(r, t)])).1 =
        ((d0.runTicks env inputs).1.poll r t env).1 := by
      rw [runTicks_append]
      exact runTicks_single (d0.runTicks env inputs).1 env (r, t)
    rw [h1]
    exact poll_post_agree _ env r t s h
  · intro d env t
    rfl

/-- Witness for C2: after Off at instant 0 and then On at instant 4 from
AtDesk, the most recent reading agrees with the current state and the pending
transition is cleared. -/
theorem C2_pending_invariant_witness :
    (Daemon.runTicks ⟨⟨"m", "d", 5, 10⟩, State.AtDesk, none⟩
        ⟨true, true, true, true, false⟩
        ([(DpmsState.Off, 0)] ++ [(DpmsState.On, 4)])).1.transition_started =
      none := by
  have h := C2_pending_invariant.1 ⟨⟨"m", "d", 5, 10⟩, State.AtDesk, none⟩
    ⟨true, true, true, true, false⟩ [(DpmsState.Off, 0)] DpmsState.On 4
    State.AtDesk rfl
  exact h.2 (by decide)

-- ---- C8 ----

/-- Scenario A exactly as the claim states it, for every configuration and
every environment whose enable step succeeds: starting in AtDesk with
PendingTransition None, feeding Off three times with gaps of grace_period/2
between consecutive feeds (instants 0, grace_period/2 and
grace_period/2 + grace_period/2) produces no commit — the committed state is
still AtDesk and no effect was invoked — and a further Off fed once total
elapsed time since the first Off is at least grace_period commits to Away,
with enable-output then start-service called exactly once each. -/
def specScenarioA : Prop :=
  ∀ (cfg : Config) (env : Env), env.enableOk = true →
    ((Daemon.runTicks ⟨cfg, State.AtDesk, none⟩ env
        [(DpmsState.Off, 0), (DpmsState.Off, cfg.grace_period / 2),
         (DpmsState.Off, cfg.grace_period / 2 + cfg.grace_period / 2)]).1.state =
        State.AtDesk ∧
      (Daemon.runTicks ⟨cfg, State.AtDesk, none⟩ env
        [(DpmsState.Off, 0), (DpmsState.Off, cfg.grace_period / 2),
         (DpmsState.Off, cfg.grace_period / 2 + cfg.grace_period / 2)]).2 = []) ∧
    ∀ t3, cfg.grace_period ≤ t3 →
      Daemon.runTicks ⟨cfg, State.AtDesk, none⟩ env
          [(DpmsState.Off, 0), (DpmsState.Off, cfg.grace_period / 2),
           (DpmsState.Off, cfg.grace_period / 2 + cfg.grace_period / 2),
           (DpmsState.Off, t3)] =
        (⟨cfg, State.Away, none⟩,
         [Effect.enableOutput cfg.dummy_plug, Effect.startService])

/-- C8 counterexample: Scenario A as stated is false on the code.  With the
default grace period of 10 seconds, the three Off feeds land at instants 0, 5
and 10, so the elapsed time since the first Off already reaches the grace
period on the third feed; poll commits on elapsed ≥ grace_period, and the
daemon ends that prefix in Away with enable-output and start-service invoked —
contradicting the claimed "no commit". -/
theorem C8_counterexample : ¬ specScenarioA := by
  intro h
  have h2 := (h ⟨"m", "d", 5, 10⟩ ⟨true, true, true, true, false⟩ rfl).1.1
  exact absurd h2 (by decide)

/-- C8 amended: starting in AtDesk with PendingTransition None, Off feeds
produce no commit and no effects while the elapsed time since the first Off is
strictly below the grace period; a further Off fed once total elapsed time
since the first Off is at least the grace period commits to Away, with
enable-output then start-service called exactly once each.  (Gaps of exactly
grace_period/2 reach the grace period on the third feed for an even grace
period, so the original three-feed prefix already commits.) -/
theorem C8_scenario_A :
    ∀ (cfg : Config) (env : Env) (t1 t2 t3 : Nat),
      t1 < cfg.grace_period → t2 < cfg.grace_period → cfg.grace_period ≤ t3 →
      env.enableOk = true →
      Daemon.runTicks ⟨cfg, State.AtDesk, none⟩ env
          [(DpmsState.Off, 0), (DpmsState.Off, t1), (DpmsState.Off, t2)] =
        (⟨cfg, State.AtDesk, some 0⟩, []) ∧
      Daemon.runTicks ⟨cfg, State.AtDesk, none⟩ env
          [(DpmsState.Off, 0), (DpmsState.Off, t1), (DpmsState.Off, t2),
           (DpmsState.Off, t3)] =
        (⟨cfg, State.Away, none⟩,
         [Effect.enableOutput cfg.dummy_plug, Effect.startService]) := by
  intro cfg env t1 t2 t3 h1 h2 h3 he
  have hp1 : Daemon.poll ⟨cfg, State.AtDesk, none⟩ DpmsState.Off 0 env =
      (⟨cfg, State.AtDesk, some 0⟩, Except.ok (), []) := by
    rw [poll_of_desired ⟨cfg, State.AtDesk, none⟩ DpmsState.Off State.Away 0 env
        rfl,
      pollDesired_start ⟨cfg, State.AtDesk, none⟩ State.Away 0 env
        (fun hh => State.noConfusion hh) rfl]
  have hp2 : Daemon.poll ⟨cfg, State.AtDesk, some 0⟩ DpmsState.Off t1 env =
      (⟨cfg, State.AtDesk, some 0⟩, Except.ok (), []) := by
    rw [poll_of_desired ⟨cfg, State.AtDesk, some 0⟩ DpmsState.Off State.Away t1
        env rfl,
      pollDesired_wait ⟨cfg, State.AtDesk, some 0⟩ State.Away t1 0 env
        (fun hh => State.noConfusion hh) rfl (by simpa using h1)]
  have hp3 : Daemon.poll ⟨cfg, State.AtDesk, some 0⟩ DpmsState.Off t2 env =
      (⟨cfg, State.AtDesk, some 0⟩, Except.ok (), []) := by
    rw [poll_of_desired ⟨cfg, State.AtDesk, some 0⟩ DpmsState.Off State.Away t2
        env rfl,
      pollDesired_wait ⟨cfg, State.AtDesk, some 0⟩ State.Away t2 0 env
        (fun hh => State.noConfusion hh) rfl (by simpa using h2)]
  have hp4 : Daemon.poll ⟨cfg, State.AtDesk, some 0⟩ DpmsState.Off t3 env =
      (⟨cfg, State.Away, none⟩,
       Daemon.apply_state ⟨cfg, State.Away, none⟩ env) := by
    rw [poll_of_desired ⟨cfg, State.AtDesk, some 0⟩ DpmsState.Off State.Away t3
        env rfl,
      pollDesired_commit ⟨cfg, State.AtDesk, some 0⟩ State.Away t3 0 env
        (fun hh => State.noConfusion hh) rfl (by simpa using h3)]
  have ha : (Daemon.apply_state ⟨cfg, State.Away, none⟩ env).2 =
      [Effect.enableOutput cfg.dummy_plug, Effect.startService] := by
    simp only [Daemon.apply_state, he, if_true]
    split <;> rfl
  constructor
  · simp [runTicks_cons, runTicks_nil, hp1, hp2, hp3]
  · simp [runTicks_cons, runTicks_nil, hp1, hp2, hp3, hp4, ha]

/-- Witness for C8: a concrete run with grace period 10 and feeds at instants
0, 5, 9 and 10. -/
theorem C8_scenario_A_witness :
    Daemon.runTicks ⟨⟨"m", "d", 5, 10⟩, State.AtDesk, none⟩
        ⟨true, true, true, true, false⟩
        [(DpmsState.Off, 0), (DpmsState.Off, 5), (DpmsState.Off, 9)] =
      (⟨⟨"m", "d", 5, 10⟩, State.AtDesk, some 0⟩, []) ∧
    Daemon.runTicks ⟨⟨"m", "d", 5, 10⟩, State.AtDesk, none⟩
        ⟨true, true, true, true, false⟩
        [(DpmsState.Off, 0), (DpmsState.Off, 5), (DpmsState.Off, 9),
         (DpmsState.Off, 10)] =
      (⟨⟨"m", "d", 5, 10⟩, State.Away, none⟩,
       [Effect.enableOutput "d", Effect.startService]) :=
  C8_scenario_A ⟨"m", "d", 5, 10⟩ ⟨true, true, true, true, false⟩ 5 9 10
    (by decide) (by decide) (by decide) rfl

-- ---- C1 ----

theorem state_eq_of_both_ne (a b c : State) (h1 : a ≠ c) (h2 : b ≠ c) :
    a = b := by
  cases a <;> cases b <;> cases c <;> simp_all

theorem desiredOf_inj (r1 r2 : DpmsState) (s : State)
    (h1 : desiredOf r1 = some s) (h2 : desiredOf r2 = some s) : r1 = r2 := by
  cases r1 <;> cases r2 <;> simp_all [desiredOf] <;>
    exact State.noConfusion (h1.trans h2.symm)

theorem desiredOf_total (r : DpmsState) (h : r ≠ DpmsState.Unknown) :
    ∃ s, desiredOf r = some s := by
  cases r with
  | On => exact ⟨State.AtDesk, rfl⟩
  | Off => exact ⟨State.Away, rfl⟩
  | Unknown => exact absurd rfl h

/-- Invariant of the debounce loop over Unknown-free input windows: whenever a
transition is pending after i ticks, its timestamp is the instant of the first
tick of the maximal run of identical readings ending at tick i-1, every
reading of that run disagrees with the (unchanged) committed state, and no
state change happened at any tick of that run; whenever no transition is
pending, the previous tick (if any) ended with a reading agreeing with the
committed state. -/
theorem debounce_inv (d0 : Daemon) (env : Env) (inputs : List (DpmsState × Nat))
    (h0 : d0.transition_started = none)
    (hnu : ∀ p ∈ inputs, p.1 ≠ DpmsState.Unknown) :
    ∀ i, i ≤ inputs.length →
      (∀ v, (daemonAfter d0 env inputs i).transition_started = some v →
        1 ≤ i ∧ v = timeAt inputs (runStart inputs (i - 1)) ∧
        (∃ s, desiredOf (readAt inputs (i - 1)) = some s ∧
          s ≠ (daemonAfter d0 env inputs i).state) ∧
        (∀ k, runStart inputs (i - 1) ≤ k → k < i →
          (daemonAfter d0 env inputs (k + 1)).state =
            (daemonAfter d0 env inputs k).state)) ∧
      ((daemonAfter d0 env inputs i).transition_started = none →
        i = 0 ∨ ∃ s, desiredOf (readAt inputs (i - 1)) = some s ∧
          s = (daemonAfter d0 env inputs i).state) := by
  intro i
  induction i with
  | zero =>
    intro _
    constructor
    · intro v hv
      rw [daemonAfter_zero, h0] at hv
      cases hv
    · intro _
      exact Or.inl rfl
  | succ i ih =>
    intro hle
    have hi : i < inputs.length := Nat.lt_of_succ_le hle
    have ihh := ih (Nat.le_of_lt hi)
    have hstep := daemonAfter_succ d0 env inputs i hi
    have hru : readAt inputs i ≠ DpmsState.Unknown := by
      rw [readAt_lt inputs i hi]
      exact hnu inputs[i] (List.getElem_mem hi)
    obtain ⟨s, hs⟩ := desiredOf_total (readAt inputs i) hru
    simp only [Nat.add_sub_cancel]
    by_cases hm : s = (daemonAfter d0 env inputs i).state
    · -- the reading agrees with the committed state: pending is cleared
      have hp : daemonAfter d0 env inputs (i + 1) =
          { daemonAfter d0 env inputs i with transition_started := none } := by
        rw [hstep, poll_of_desired _ _ s _ _ hs, pollDesired_match _ _ _ _ hm]
      constructor
      · intro v hv
        rw [hp] at hv
        cases hv
      · intro _
        exact Or.inr ⟨s, hs, by rw [hp]; exact hm⟩
    · cases hts : (daemonAfter d0 env inputs i).transition_started with
      | none =>
        -- a disagreement with no pending transition: the timer starts now
        have hp : daemonAfter d0 env inputs (i + 1) =
            { daemonAfter d0 env inputs i with
              transition_started := some (timeAt inputs i) } := by
          rw [hstep, poll_of_desired _ _ s _ _ hs,
            pollDesired_start _ _ _ _ hm hts]
        have hrs : runStart inputs i = i := by
          cases i with
          | zero => rfl
          | succ m =>
            rcases ihh.2 hts with h0' | ⟨s0, hs0, hs0eq⟩
            · exact absurd h0' (Nat.succ_ne_zero m)
            · simp only [Nat.succ_sub_one] at hs0
              have hneq : readAt inputs m ≠ readAt inputs (m + 1) := by
                intro hcon
                rw [hcon, hs] at hs0
                cases hs0
                exact hm hs0eq
              simp [runStart, hneq]
        constructor
        · intro v hv
          rw [hp] at hv
          have hv2 : some (timeAt inputs i) = some v := hv
          cases hv2
          refine ⟨Nat.le_add_left 1 i, by rw [hrs], ⟨s, hs, ?_⟩, ?_⟩
          · rw [hp]
            exact hm
          · intro k hk1 hk2
            rw [hrs] at hk1
            have hki : k = i := Nat.le_antisymm (Nat.lt_succ_iff.mp hk2) hk1
            subst hki
            rw [hp]
        · intro hv
          rw [hp] at hv
          cases hv
      | some t0 =>
        obtain ⟨h1i, ht0, ⟨s1, hs1, hs1ne⟩, chain⟩ := ihh.1 t0 hts
        obtain ⟨m, rfl⟩ : ∃ m, i = m + 1 := ⟨i - 1, by omega⟩
        simp only [Nat.succ_sub_one] at ht0 hs1 chain
        -- the run continues: this tick's reading equals the previous one
        have hs1s : s1 = s :=
          state_eq_of_both_ne s1 s (daemonAfter d0 env inputs (m + 1)).state
            hs1ne hm
        have hread : readAt inputs m = readAt inputs (m + 1) := by
          apply desiredOf_inj _ _ s _ hs
          rw [← hs1s]
          exact hs1
        have hrs : runStart inputs (m + 1) = runStart inputs m := by
          simp [runStart, hread]
        by_cases hcmp : (daemonAfter d0 env inputs (m + 1)).config.grace_period ≤
            timeAt inputs (m + 1) - t0
        · -- the grace period has elapsed: commit
          have hp : daemonAfter d0 env inputs (m + 1 + 1) =
              ⟨(daemonAfter d0 env inputs (m + 1)).config, s, none⟩ := by
            rw [hstep, poll_of_desired _ _ s _ _ hs,
              pollDesired_commit _ _ _ t0 _ hm hts hcmp]
          constructor
          · intro v hv
            rw [hp] at hv
            cases hv
          · intro _
            exact Or.inr ⟨s, hs, by rw [hp]⟩
        · -- still waiting: nothing changes
          have hp : daemonAfter d0 env inputs (m + 1 + 1) =
              daemonAfter d0 env inputs (m + 1) := by
            rw [hstep, poll_of_desired _ _ s _ _ hs,
              pollDesired_wait _ _ _ t0 _ hm hts (Nat.lt_of_not_le hcmp)]
          constructor
          · intro v hv
            rw [hp, hts] at hv
            cases hv
            refine ⟨Nat.le_add_left 1 (m + 1), by rw [hrs]; exact ht0,
              ⟨s, hs, ?_⟩, ?_⟩
            · rw [hp]
              exact hm
            · intro k hk1 hk2
              rw [hrs] at hk1
              rcases Nat.lt_succ_iff_lt_or_eq.mp hk2 with hklt | hkeq
              · exact chain k hk1 hklt
              · subst hkeq
                rw [hp]
          · intro hv
            rw [hp, hts] at hv
            cases hv

/-- The run-debounce property exactly as the claim states it, quantified over
all sequences of readings (Unknown included) fed from a daemon with no pending
transition: whenever the committed state changes at tick i, the maximal run of
identical readings containing tick i has lasted at least the grace period, and
no earlier tick of that run changed the state. -/
def specRunDebounce : Prop :=
  ∀ (d0 : Daemon) (env : Env) (inputs : List (DpmsState × Nat)) (i : Nat),
    d0.transition_started = none →
    i < inputs.length →
    (daemonAfter d0 env inputs (i + 1)).state ≠
      (daemonAfter d0 env inputs i).state →
    d0.config.grace_period ≤
      timeAt inputs i - timeAt inputs (runStart inputs i) ∧
    ∀ k, runStart inputs i ≤ k → k < i →
      (daemonAfter d0 env inputs (k + 1)).state =
        (daemonAfter d0 env inputs k).state

/-- C1 counterexample: with grace period 10, the window Off at 0, Unknown at
5, Off at 10 commits AtDesk to Away on the third tick, because the Unknown
tick leaves the pending timestamp 0 in place; yet the maximal run of identical
(non-matching) readings containing that tick is just the final Off, which has
lasted 0 seconds — less than the grace period.  The claim's run-based bound is
therefore false over sequences containing Unknown. -/
theorem C1_counterexample : ¬ specRunDebounce := by
  intro h
  have h2 := h ⟨⟨"m", "d", 5, 10⟩, State.AtDesk, none⟩
    ⟨true, true, true, true, false⟩
    [(DpmsState.Off, 0), (DpmsState.Unknown, 5), (DpmsState.Off, 10)] 2
    rfl (by decide) (by decide)
  exact absurd h2.1 (by decide)

/-- C1 amended: (a) on a tick whose reading maps to a desired state different
from the current PresenceState and with no pending transition, poll records
the current instant and invokes no hardware effect; (b) under such a reading,
a commit — PresenceState set to the desired state, PendingTransition cleared,
effect trace that of apply_state on the committed daemon — happens exactly
when PendingTransition is Some t0 and now - t0 has reached the grace period;
(c) over every sequence of On/Off readings (no Unknown) fed from a daemon with
no pending transition, PresenceState changes at most once per maximal run of
identical non-matching readings, and only once the elapsed time from the
start of that run has reached the grace period.  (With Unknown readings
interleaved, part (c) as originally stated fails; see the counterexample.) -/
theorem C1_debounce :
    (∀ (d : Daemon) (env : Env) (r : DpmsState) (s : State) (now : Nat),
        desiredOf r = some s → s ≠ d.state → d.transition_started = none →
        d.poll r now env =
          ({ d with transition_started := some now }, Except.ok (), [])) ∧
    (∀ (d : Daemon) (env : Env) (r : DpmsState) (s : State) (now : Nat),
        desiredOf r = some s → s ≠ d.state →
        (((d.poll r now env).1.state = s ∧
          (d.poll r now env).1.transition_started = none ∧
          (d.poll r now env).2.2 =
            (Daemon.apply_state ⟨d.config, s, none⟩ env).2) ↔
          ∃ t0, d.transition_started = some t0 ∧
            d.config.grace_period ≤ now - t0)) ∧
    (∀ (d0 : Daemon) (env : Env) (inputs : List (DpmsState × Nat)) (i : Nat),
        d0.transition_started = none →
        (∀ p ∈ inputs, p.1 ≠ DpmsState.Unknown) →
        i < inputs.length →
        (daemonAfter d0 env inputs (i + 1)).state ≠
          (daemonAfter d0 env inputs i).state →
        d0.config.grace_period ≤
          timeAt inputs i - timeAt inputs (runStart inputs i) ∧
        ∀ k, runStart inputs i ≤ k → k < i →
          (daemonAfter d0 env inputs (k + 1)).state =
            (daemonAfter d0 env inputs k).state) := by
  refine ⟨?_, ?_, ?_⟩
  · intro d env r s now hdes hne hts
    rw [poll_of_desired d r s now env hdes, pollDesired_start d s now env hne hts]
  · intro d env r s now hdes hne
    constructor
    · rintro ⟨hst, hpn, -⟩
      cases hts : d.transition_started with
      | none =>
        rw [poll_of_desired d r s now env hdes,
          pollDesired_start d s now env hne hts] at hpn
        cases hpn
      | some t0 =>
        by_cases hle : d.config.grace_period ≤ now - t0
        · exact ⟨t0, rfl, hle⟩
        · rw [poll_of_desired d r s now env hdes,
            pollDesired_wait d s now t0 env hne hts (Nat.lt_of_not_le hle)]
            at hst
          exact absurd hst.symm hne
    · rintro ⟨t0, hts, hle⟩
      rw [poll_of_desired d r s now env hdes,
        pollDesired_commit d s now t0 env hne hts hle]
      exact ⟨rfl, rfl, rfl⟩
  · intro d0 env inputs i h0 hnu hi hch
    have hstep := daemonAfter_succ d0 env inputs i hi
    rw [hstep] at hch
    obtain ⟨s, t0, hs, hsne, hts, hgrace, hres⟩ :=
      poll_change (daemonAfter d0 env inputs i) (readAt inputs i)
        (timeAt inputs i) env hch
    obtain ⟨h1i, ht0, ⟨s1, hs1, hs1ne⟩, chain⟩ :=
      (debounce_inv d0 env inputs h0 hnu i (Nat.le_of_lt hi)).1 t0 hts
    obtain ⟨m, rfl⟩ : ∃ m, i = m + 1 := ⟨i - 1, by omega⟩
    simp only [Nat.succ_sub_one] at ht0 hs1 chain
    have hs1s : s1 = s :=
      state_eq_of_both_ne s1 s (daemonAfter d0 env inputs (m + 1)).state
        hs1ne hsne
    have hread : readAt inputs m = readAt inputs (m + 1) := by
      apply desiredOf_inj _ _ s _ hs
      rw [← hs1s]
      exact hs1
    have hrs : runStart inputs (m + 1) = runStart inputs m := by
      simp [runStart, hread]
    constructor
    · rw [hrs, ← ht0, ← daemonAfter_config d0 env inputs (m + 1)]
      exact hgrace
    · intro k hk1 hk2
      rw [hrs] at hk1
      exact chain k hk1 hk2

/-- Witness for C1: part (a) at a concrete disagreeing tick with no pending
transition, and part (c) at a concrete Unknown-free window whose commit tick
closes a run that started at instant 0 and lasted 12 seconds, at least the
grace period of 10. -/
theorem C1_debounce_witness :
    Daemon.poll ⟨⟨"m", "d", 5, 10⟩, State.AtDesk, none⟩ DpmsState.Off 3
        ⟨true, true, true, true, false⟩ =
      (⟨⟨"m", "d", 5, 10⟩, State.AtDesk, some 3⟩, Except.ok (), []) ∧
    10 ≤ timeAt [(DpmsState.Off, 0), (DpmsState.Off, 12)] 1 -
      timeAt [(DpmsState.Off, 0), (DpmsState.Off, 12)]
        (runStart [(DpmsState.Off, 0), (DpmsState.Off, 12)] 1) := by
  constructor
  · exact C1_debounce.1 ⟨⟨"m", "d", 5, 10⟩, State.AtDesk, none⟩
      ⟨true, true, true, true, false⟩ DpmsState.Off State.Away 3
      (by decide) (by decide) rfl
  · exact (C1_debounce.2.2 ⟨⟨"m", "d", 5, 10⟩, State.AtDesk, none⟩
      ⟨true, true, true, true, false⟩
      [(DpmsState.Off, 0), (DpmsState.Off, 12)] 1
      rfl (by decide) (by decide) (by decide)).1
